import Mathlib

attribute [local semireducible] Rat.mul Rat.add Rat.sub Rat.inv

/-!
Verification development for the chameleon mesh-painting engine
(source file: src/ts/chameleon.ts).

The definitions below are a shallow embedding of the painting core:
the affected-face recorder, the stroke/triangle collision tests, the
recursive surface flood-fill, the per-mesh face-adjacency construction,
and the dual-texture (drawing vs viewing) switching and reconciliation.

Modelling conventions:
. JavaScript double-precision numbers are modelled as rationals; the
  source only adds, subtracts, multiplies, divides and compares them.
. Typed arrays are modelled as total functions together with an explicit
  length; a write outside the range is dropped and a read outside the
  range yields the falsy/zero default, matching JavaScript typed-array
  semantics.  The 8-bit neighbour counters wrap modulo 256 and the
  32-bit face-index stores wrap modulo 2 to the 32, as in the source.
. The recursive flood-fill takes an explicit recursion-depth budget
  (fuel).  Every call that survives the visited-guard marks a fresh
  face, so a budget of one more than the face count reproduces the
  unbounded recursion of the source exactly; invariant theorems are
  proved for every budget.
. External collaborators (the renderer, the raycaster, the camera
  normalisation) are taken as inputs: the raycast result is an optional
  face index, and the normalised camera position is an input vector.
-/

/-- Point in the 2D drawing / screen space (THREE.Vector2 in the source). -/
structure Pt where
  x : ℚ
  y : ℚ
deriving DecidableEq

instance : Inhabited Pt := ⟨⟨0, 0⟩⟩

/-- Vector in 3D space (THREE.Vector3 in the source). -/
structure Vec3 where
  x : ℚ
  y : ℚ
  z : ℚ
deriving DecidableEq

instance : Inhabited Vec3 := ⟨⟨0, 0, 0⟩⟩

/-- Dot product of two 3D vectors (THREE.Vector3.dot). -/
def dot3 (a b : Vec3) : ℚ :=
  a.x * b.x + a.y * b.y + a.z * b.z

/-- Exact componentwise coordinate equality of two 3D points, as used by
the adjacency constructor of TextureManager (it compares x, y and z of
two vertices with the JavaScript equality operator). -/
def vecEqB (p q : Vec3) : Bool :=
  decide (p.x = q.x ∧ p.y = q.y ∧ p.z = q.z)

/-- TextureManager pointCircleCollide: a radius of exactly zero is
rejected up front, otherwise the squared distance between the two
points is compared with the squared radius. -/
def pointCircleCollide (point circle : Pt) (r : ℚ) : Bool :=
  if r = 0 then false
  else
    decide ((circle.x - point.x) * (circle.x - point.x) +
            (circle.y - point.y) * (circle.y - point.y) ≤ r * r)

/-- TextureManager lineCircleCollide: endpoint-in-circle tests followed
by the projection of the centre onto the segment carrier and a collision
test against the nearest point, guarded by the projection parameter
staying inside the segment. -/
def lineCircleCollide (a b circle : Pt) (radius : ℚ) : Bool :=
  if pointCircleCollide a circle radius then true
  else if pointCircleCollide b circle radius then true
  else
    let dx := b.x - a.x
    let dy := b.y - a.y
    let lcx := circle.x - a.x
    let lcy := circle.y - a.y
    let dLen2 := dx * dx + dy * dy
    let dp := (lcx * dx + lcy * dy) / dLen2
    let px := if dLen2 > 0 then dx * dp else dx
    let py := if dLen2 > 0 then dy * dp else dy
    let nearest : Pt := ⟨a.x + px, a.y + py⟩
    let pLen2 := px * px + py * py
    pointCircleCollide nearest circle radius &&
      decide (pLen2 ≤ dLen2) && decide (px * dx + py * dy ≥ 0)

/-- Denominator of the barycentric computation in TextureManager
pointInTriangle, factored out so that theorems can speak about the
degenerate (zero denominator) case. -/
def barycentricDenom (t0 t1 t2 : Pt) : ℚ :=
  let v0x := t2.x - t0.x
  let v0y := t2.y - t0.y
  let v1x := t1.x - t0.x
  let v1y := t1.y - t0.y
  (v0x * v0x + v0y * v0y) * (v1x * v1x + v1y * v1y) -
    (v0x * v1x + v0y * v1y) * (v0x * v1x + v0y * v1y)

/-- TextureManager pointInTriangle: barycentric containment test.  When
the denominator is zero the source replaces its inverse by 0 instead of
dividing. -/
def pointInTriangle (point t0 t1 t2 : Pt) : Bool :=
  let v0x := t2.x - t0.x
  let v0y := t2.y - t0.y
  let v1x := t1.x - t0.x
  let v1y := t1.y - t0.y
  let v2x := point.x - t0.x
  let v2y := point.y - t0.y
  let dot00 := v0x * v0x + v0y * v0y
  let dot01 := v0x * v1x + v0y * v1y
  let dot02 := v0x * v2x + v0y * v2y
  let dot11 := v1x * v1x + v1y * v1y
  let dot12 := v1x * v2x + v1y * v2y
  let b := barycentricDenom t0 t1 t2
  let inv := if b = 0 then 0 else 1 / b
  let u := (dot11 * dot02 - dot01 * dot12) * inv
  let v := (dot00 * dot12 - dot01 * dot02) * inv
  decide (u ≥ 0) && decide (v ≥ 0) && decide (u + v ≤ 1)

/-- State of an AffectedFacesRecorder: a Uint32Array of recorded face
indices, a Uint8Array used as a membership bitmap, and the member
count.  Both arrays have length nFaces. -/
structure RecorderState where
  nFaces : Nat
  nAffected : Nat
  affectedFaces : Nat → Nat
  isFaceAffected : Nat → Bool

/-- Freshly constructed AffectedFacesRecorder over nFaces faces. -/
def initRecorder (n : Nat) : RecorderState :=
  { nFaces := n, nAffected := 0, affectedFaces := fun _ => 0, isFaceAffected := fun _ => false }

/-- AffectedFacesRecorder contains: double negation of the bitmap read;
a read outside the typed array yields the falsy undefined. -/
def RecorderState.contains (r : RecorderState) (faceIndex : Nat) : Bool :=
  decide (faceIndex < r.nFaces) && r.isFaceAffected faceIndex

/-- AffectedFacesRecorder add: when the bitmap read is falsy, set the
bitmap cell, append the index to the order array and bump the count.
Writes outside the typed arrays are dropped; the Uint32Array store
keeps the value modulo 2 to the 32. -/
def RecorderState.add (r : RecorderState) (faceIndex : Nat) : RecorderState :=
  if r.contains faceIndex then r
  else
    { r with
      isFaceAffected := fun k =>
        if faceIndex < r.nFaces ∧ k = faceIndex then true else r.isFaceAffected k,
      affectedFaces := fun k =>
        if r.nAffected < r.nFaces ∧ k = r.nAffected then faceIndex % 4294967296
        else r.affectedFaces k,
      nAffected := r.nAffected + 1 }

/-- AffectedFacesRecorder reset: zero the count and copy the all-zero
array over the bitmap; the order array is left as is. -/
def RecorderState.reset (r : RecorderState) : RecorderState :=
  { r with nAffected := 0, isFaceAffected := fun _ => false }

/-- Patch geometry computed by TextureManager prepareViewingTexture:
the UV minima kept for remapping, the source rectangle of the
drawImage call on the drawing canvas in pixel coordinates, and the
dimensions of the patch canvas. -/
structure PatchInfo where
  uMin : ℚ
  vMin : ℚ
  xMin : ℚ
  yMin : ℚ
  xMax : ℚ
  yMax : ℚ
  width : ℚ
  height : ℚ
deriving DecidableEq

/-- Accumulator step for Math.max folded from negative Infinity; none
models the Infinity initialiser. -/
def jsMaxAcc : Option ℚ → ℚ → Option ℚ
  | none, x => some x
  | some a, x => some (if a ≤ x then x else a)

/-- Accumulator step for Math.min folded from positive Infinity. -/
def jsMinAcc : Option ℚ → ℚ → Option ℚ
  | none, x => some x
  | some a, x => some (if a ≤ x then a else x)

/-- Fold of prepareViewingTexture computing uMax over the three drawing
UVs of every affected face. -/
def uMaxFold (uvs : List (Pt × Pt × Pt)) : Option ℚ :=
  uvs.foldl (fun acc t => jsMaxAcc (jsMaxAcc (jsMaxAcc acc t.1.x) t.2.1.x) t.2.2.x) none

/-- Fold of prepareViewingTexture computing uMin. -/
def uMinFold (uvs : List (Pt × Pt × Pt)) : Option ℚ :=
  uvs.foldl (fun acc t => jsMinAcc (jsMinAcc (jsMinAcc acc t.1.x) t.2.1.x) t.2.2.x) none

/-- Fold of prepareViewingTexture computing vMax. -/
def vMaxFold (uvs : List (Pt × Pt × Pt)) : Option ℚ :=
  uvs.foldl (fun acc t => jsMaxAcc (jsMaxAcc (jsMaxAcc acc t.1.y) t.2.1.y) t.2.2.y) none

/-- Fold of prepareViewingTexture computing vMin. -/
def vMinFold (uvs : List (Pt × Pt × Pt)) : Option ℚ :=
  uvs.foldl (fun acc t => jsMinAcc (jsMinAcc (jsMinAcc acc t.1.y) t.2.1.y) t.2.2.y) none

/-- Patch extraction of prepareViewingTexture: UV bounds over the
affected faces, converted to drawing-canvas pixels with the horizontal
convention x equals u times width and the vertical flip y equals one
minus v times height; the patch canvas is sized to the rectangle and
filled by drawImage from source origin (xMin, yMin). -/
def prepareViewingPatch (uvs : List (Pt × Pt × Pt)) (w h : ℚ) : Option PatchInfo :=
  match uMaxFold uvs, uMinFold uvs, vMaxFold uvs, vMinFold uvs with
  | some uMax, some uMin, some vMax, some vMin =>
    let xMax := uMax * w
    let xMin := uMin * w
    let yMax := (1 - vMin) * h
    let yMin := (1 - vMax) * h
    some { uMin := uMin, vMin := vMin, xMin := xMin, yMin := yMin, xMax := xMax, yMax := yMax,
           width := xMax - xMin, height := yMax - yMin }
  | _, _, _, _ => none

/-- Immutable per-mesh data read by the flood-fill: the face count, the
precomputed adjacency arrays, the face normals, and the normalised
camera position (the source normalises camera.position through the
vector library and only uses the result in a dot-product sign test). -/
structure FillEnv where
  nFaces : Nat
  nAdjacentFaces : Nat → Nat
  adjacentFacesList : Nat → Nat → Nat
  faceNormal : Nat → Vec3
  cameraDirection : Vec3

/-- Mutable TextureManager state: canvas dimensions, both UV layouts,
the per-face viewing patch assignment, the affected-face recorder, the
per-stroke visited bitmap, and two effect counters recording that the
expensive patch-extraction pixel write respectively the projection and
render work of prepareDrawingTexture happened. -/
structure TMState where
  canvasWidth : ℚ
  canvasHeight : ℚ
  drawingUvs : Nat → Pt × Pt × Pt
  viewingUvs : Nat → Pt × Pt × Pt
  facePatch : Nat → Option PatchInfo
  affected : RecorderState
  isFloodFill : Nat → Bool
  pixelWriteCount : Nat
  projectionWorkCount : Nat

/-- Drawing UVs of face i rescaled into drawing-canvas pixels, as at the
start of addRecursive: x equals u times width, y equals one minus v
times height. -/
def faceTriangleInPixels (dUvs : Nat → Pt × Pt × Pt) (w h : ℚ) (i : Nat) : Pt × Pt × Pt :=
  let t := dUvs i
  (⟨t.1.x * w, (1 - t.1.y) * h⟩,
   ⟨t.2.1.x * w, (1 - t.2.1.y) * h⟩,
   ⟨t.2.2.x * w, (1 - t.2.2.y) * h⟩)

/-- Intersection test of addRecursive between the projected triangle of
face i and the stroke circle: barycentric containment of the centre or
collision of the circle with any of the three edges. -/
def faceIntersectsStroke (dUvs : Nat → Pt × Pt × Pt) (w h : ℚ) (i : Nat)
    (center : Pt) (radius : ℚ) : Bool :=
  let t := faceTriangleInPixels dUvs w h i
  pointInTriangle center t.1 t.2.1 t.2.2 ||
    lineCircleCollide t.1 t.2.1 center radius ||
    lineCircleCollide t.2.1 t.2.2 center radius ||
    lineCircleCollide t.2.2 t.1 center radius

/-- Front-facing filter of addRecursive applied to neighbour faces: the
face normal must have positive dot product with the normalised camera
position. -/
def frontFacing (env : FillEnv) (j : Nat) : Bool :=
  decide (0 < dot3 (env.faceNormal j) env.cameraDirection)

/-- TextureManager addRecursive.  A face that is not yet on the visited
bitmap and whose projected triangle intersects the stroke circle is
marked visited, added to the affected recorder, and its stored
neighbours that pass the front-facing filter are recursed into.  The
fuel argument bounds the recursion depth; see the header note.  The
lower-bound guard of the source on the face index holds trivially for
natural-number indices. -/
def addRecursive (env : FillEnv) : Nat → TMState → Nat → Pt → ℚ → TMState
  | 0, st, _, _, _ => st
  | fuel + 1, st, faceIndex, center, radius =>
    if st.isFloodFill faceIndex then st
    else if faceIntersectsStroke st.drawingUvs st.canvasWidth st.canvasHeight
              faceIndex center radius then
      let st1 : TMState :=
        { st with
          isFloodFill := fun k => if k = faceIndex then true else st.isFloodFill k,
          affected := st.affected.add faceIndex }
      (List.range (env.nAdjacentFaces faceIndex)).foldl
        (fun s idx =>
          if frontFacing env (env.adjacentFacesList faceIndex idx) then
            addRecursive env fuel s (env.adjacentFacesList faceIndex idx) center radius
          else s)
        st1
    else st

/-- TextureManager onStrokePainted.  The raycast against the mesh is an
external collaborator; its result, the material index of the first
intersected face, arrives as the optional hit argument.  On a hit the
visited bitmap is overwritten with the all-zero array and the
flood-fill is started at the hit face. -/
def onStrokePainted (env : FillEnv) (st : TMState) (hit : Option Nat)
    (canvasPos : Pt) (radius : ℚ) : TMState :=
  match hit with
  | none => st
  | some faceIndex =>
    addRecursive env (env.nFaces + 1)
      { st with isFloodFill := fun _ => false } faceIndex canvasPos radius

/-- Face indices visited by the forEach of the recorder, in insertion
order. -/
def TMState.affectedIds (st : TMState) : List Nat :=
  (List.range st.affected.nAffected).map st.affected.affectedFaces

/-- Drawing UV triples of the affected faces, in insertion order. -/
def TMState.affectedUvs (st : TMState) : List (Pt × Pt × Pt) :=
  st.affectedIds.map st.drawingUvs

/-- Remapping of one drawing UV into patch-local coordinates, from the
forEach of prepareViewingTexture. -/
def remapUv (du : Pt) (p : PatchInfo) (w h : ℚ) : Pt :=
  ⟨(du.x - p.uMin) * w / p.width, (du.y - p.vMin) * h / p.height⟩

/-- Per-face body of the forEach of prepareViewingTexture: assign the
patch to the face material and rewrite the three viewing UVs of the
face from its drawing UVs. -/
def remapFace (p : PatchInfo) (acc : TMState) (f : Nat) : TMState :=
  { acc with
    facePatch := fun m => if m = f then some p else acc.facePatch m,
    viewingUvs := fun m =>
      if m = f then
        (remapUv (acc.drawingUvs f).1 p acc.canvasWidth acc.canvasHeight,
         remapUv (acc.drawingUvs f).2.1 p acc.canvasWidth acc.canvasHeight,
         remapUv (acc.drawingUvs f).2.2 p acc.canvasWidth acc.canvasHeight)
      else acc.viewingUvs m }

/-- TextureManager prepareViewingTexture: when the recorder is
nonempty, extract the patch (one pixel write into a fresh patch
canvas), reassign patch and viewing UVs for every affected face, and
reset the recorder; otherwise do nothing. -/
def TMState.prepareViewingTexture (st : TMState) : TMState :=
  if 0 < st.affected.nAffected then
    match prepareViewingPatch st.affectedUvs st.canvasWidth st.canvasHeight with
    | some p =>
      let st1 : TMState := { st with pixelWriteCount := st.pixelWriteCount + 1 }
      let st2 := st.affectedIds.foldl (remapFace p) st1
      { st2 with affected := st2.affected.reset }
    | none => st
  else st

/-- External inputs of prepareDrawingTexture: the render-target
dimensions and, for every vertex, the camera projection of the vertex
(the x and y of THREE.Vector3.project), plus the vertex indices of
every face. -/
structure RenderEnv where
  rendererWidth : ℚ
  rendererHeight : ℚ
  projectVertex : Nat → Pt
  faceA : Nat → Nat
  faceB : Nat → Nat
  faceC : Nat → Nat

/-- TextureManager prepareDrawingTexture: render the viewing-textured
mesh into the drawing canvas sized to the render target (counted as
projection and render work), derive per-vertex drawing UVs from the
camera projection, and copy them onto the three corners of every
face. -/
def TMState.prepareDrawingTexture (env : RenderEnv) (st : TMState) : TMState :=
  let vUv : Nat → Pt := fun i =>
    ⟨((env.projectVertex i).x + 1) / 2, ((env.projectVertex i).y + 1) / 2⟩
  { st with
    canvasWidth := env.rendererWidth,
    canvasHeight := env.rendererHeight,
    drawingUvs := fun f => (vUv (env.faceA f), vUv (env.faceB f), vUv (env.faceC f)),
    projectionWorkCount := st.projectionWorkCount + 1 }

/-- TextureManager state right after construction: viewing UVs all at
the placeholder (1/2, 1/2), all face materials on the blank single
white pixel (modelled as none), empty recorder and clear visited
bitmap.  The drawing UVs as later projected are a parameter so that
stroke scenarios can be stated directly. -/
def initTMState (n : Nat) (w h : ℚ) (dUvs : Nat → Pt × Pt × Pt) : TMState :=
  { canvasWidth := w, canvasHeight := h, drawingUvs := dUvs,
    viewingUvs := fun _ => (⟨1/2, 1/2⟩, ⟨1/2, 1/2⟩, ⟨1/2, 1/2⟩),
    facePatch := fun _ => none,
    affected := initRecorder n,
    isFloodFill := fun _ => false,
    pixelWriteCount := 0, projectionWorkCount := 0 }

/-- Texture layout currently applied to the mesh. -/
inductive LayoutKind where
  | viewing
  | drawing
deriving DecidableEq

/-- Controls state relevant to texture switching: the texture manager,
the usingViewingTexture flag, and which layout is applied to the
mesh. -/
structure ControlsState where
  tm : TMState
  usingViewingTexture : Bool
  appliedLayout : LayoutKind

/-- Controls useViewingTexture: a no-op when the viewing texture is
already in use, otherwise prepare and apply the viewing texture and
set the flag. -/
def useViewingTexture (c : ControlsState) : ControlsState :=
  if c.usingViewingTexture then c
  else
    { tm := c.tm.prepareViewingTexture, usingViewingTexture := true,
      appliedLayout := LayoutKind.viewing }

/-- Controls useDrawingTexture: a no-op when the drawing texture is
already in use, otherwise prepare and apply the drawing texture and
clear the flag. -/
def useDrawingTexture (env : RenderEnv) (c : ControlsState) : ControlsState :=
  if c.usingViewingTexture then
    { tm := c.tm.prepareDrawingTexture env, usingViewingTexture := false,
      appliedLayout := LayoutKind.drawing }
  else c

/-- Face of the mesh geometry: three vertex indices and a normal. -/
structure FaceData where
  a : Nat
  b : Nat
  c : Nat
  normal : Vec3

instance : Inhabited FaceData := ⟨⟨0, 0, 0, default⟩⟩

/-- Mesh geometry as consumed by the TextureManager constructor. -/
structure Geometry where
  vertices : List Vec3
  faces : List FaceData

/-- One iteration of the innermost double loop of the TextureManager
constructor: the pair (k, l) of vertex slots contributes one to the
count when the two vertex positions agree exactly componentwise and
the two face normals have positive dot product. -/
def coinInd (g : Geometry) (fi fj : FaceData) (ki lj : Nat) : Nat :=
  if vecEqB (g.vertices.getD ki default) (g.vertices.getD lj default) &&
       decide (0 < dot3 fi.normal fj.normal) then 1 else 0

/-- The count accumulated by the k and l loops of the TextureManager
constructor for faces fi and fj, written as the sum of the nine loop
iterations in loop order. -/
def cCount (g : Geometry) (fi fj : FaceData) : Nat :=
  coinInd g fi fj fi.a fj.a + coinInd g fi fj fi.a fj.b + coinInd g fi fj fi.a fj.c +
  coinInd g fi fj fi.b fj.a + coinInd g fi fj fi.b fj.b + coinInd g fi fj fi.b fj.c +
  coinInd g fi fj fi.c fj.a + coinInd g fi fj fi.c fj.b + coinInd g fi fj fi.c fj.c

/-- Coincidence count of the TextureManager constructor for face
indices i and j. -/
def coincidenceCount (g : Geometry) (i j : Nat) : Nat :=
  cCount g (g.faces.getD i default) (g.faces.getD j default)

/-- Adjacency arrays of the TextureManager: the Uint8Array of neighbour
counts and the per-face Uint32Array neighbour lists, each of length
nFaces. -/
structure AdjState where
  nAdj : Nat → Nat
  adjList : Nat → Nat → Nat

/-- Adjacency arrays as allocated, before the double loop runs. -/
def initAdjState : AdjState :=
  { nAdj := fun _ => 0, adjList := fun _ _ => 0 }

/-- Store into the neighbour list of face m at the given slot: dropped
when the slot is outside the Uint32Array of length listLen, and the
stored value wraps modulo 2 to the 32. -/
def adjListWrite (al : Nat → Nat → Nat) (listLen m slot v : Nat) : Nat → Nat → Nat :=
  fun a b => if a = m ∧ b = slot ∧ slot < listLen then v % 4294967296 else al a b

/-- Body of the count-equals-two branch of the constructor loop: append
j to the list of i at its current count, append i to the list of j at
its current count, then bump both Uint8 counters (wrapping modulo
256). -/
def recordNeighbors (listLen : Nat) (s : AdjState) (i j : Nat) : AdjState :=
  let l1 := adjListWrite s.adjList listLen i (s.nAdj i) j
  let l2 := adjListWrite l1 listLen j (s.nAdj j) i
  let n1 : Nat → Nat := fun m => if m = i then (s.nAdj m + 1) % 256 else s.nAdj m
  let n2 : Nat → Nat := fun m => if m = j then (n1 m + 1) % 256 else n1 m
  { nAdj := n2, adjList := l2 }

/-- One iteration of the outer double loop of the constructor for the
ordered pair p. -/
def processPair (g : Geometry) (s : AdjState) (p : Nat × Nat) : AdjState :=
  if coincidenceCount g p.1 p.2 = 2 then recordNeighbors g.faces.length s p.1 p.2 else s

/-- The ordered pairs (i, j) with i strictly below j, in the iteration
order of the double loop of the constructor. -/
def facePairs (nF : Nat) : List (Nat × Nat) :=
  (List.range nF).flatMap fun i =>
    ((List.range nF).filter (fun j => i < j)).map (fun j => (i, j))

/-- The adjacency arrays after the constructor double loop. -/
def buildAdjacency (g : Geometry) : AdjState :=
  (facePairs g.faces.length).foldl (processPair g) initAdjState

/-- Membership of j in the stored neighbour list of i, that is among
the entries below the stored neighbour count. -/
def neighborMemB (s : AdjState) (i j : Nat) : Bool :=
  (List.range (s.nAdj i)).any fun k => s.adjList i k == j

/-- Modelled from the spec wording of the adjacency rule, for
comparison with the source: count how many of the three vertex slots of
face i carry a position that coincides exactly with the position of
some vertex of face j. -/
def specVertexCoincidences (g : Geometry) (i j : Nat) : Nat :=
  let fi := g.faces.getD i default
  let fj := g.faces.getD j default
  ([fi.a, fi.b, fi.c].filter (fun k =>
    [fj.a, fj.b, fj.c].any (fun l =>
      vecEqB (g.vertices.getD k default) (g.vertices.getD l default)))).length

/-- Modelled from the spec wording: faces i and j are neighbours when
exactly two of the vertices of i coincide with vertices of j and the
normals have positive dot product. -/
def specNeighborCondB (g : Geometry) (i j : Nat) : Bool :=
  decide (specVertexCoincidences g i j = 2) &&
    decide (0 < dot3 (g.faces.getD i default).normal (g.faces.getD j default).normal)

/-- Whether the ordered pair records an adjacency, as a Boolean. -/
def adjacentB (g : Geometry) (p : Nat × Nat) : Bool :=
  coincidenceCount g p.1 p.2 == 2

/-- Whether the ordered pair touches face m. -/
def touchesB (m : Nat) (p : Nat × Nat) : Bool :=
  p.1 == m || p.2 == m

/-- Number of processed pairs that touch face m and record an
adjacency. -/
def touchCount (g : Geometry) (P : List (Nat × Nat)) (m : Nat) : Nat :=
  (P.filter (fun p => adjacentB g p && touchesB m p)).length

/-- Invariant of the constructor double loop after processing the pair
list P: the counters equal the touch counts, every stored entry below
the counter comes from a processed adjacent pair, and every processed
adjacent pair is stored in both directions. -/
def AdjInv (g : Geometry) (P : List (Nat × Nat)) (s : AdjState) : Prop :=
  (∀ m, s.nAdj m = touchCount g P m) ∧
  (∀ m k, k < s.nAdj m → ∃ p ∈ P, adjacentB g p = true ∧
    ((p.1 = m ∧ s.adjList m k = p.2) ∨ (p.2 = m ∧ s.adjList m k = p.1))) ∧
  (∀ p ∈ P, adjacentB g p = true →
    (∃ k, k < s.nAdj p.1 ∧ s.adjList p.1 k = p.2) ∧
    (∃ k, k < s.nAdj p.2 ∧ s.adjList p.2 k = p.1))

/-- Chains of the flood-fill: face x is reachable from face a when a
chain of stored-adjacency steps leads from a to x such that every face
the chain recurses through intersects the stroke circle and every face
entered through the recursion passes the front-facing filter.  The
seed of a chain is not subject to the front-facing filter. -/
inductive ReachesBy (env : FillEnv) (dUvs : Nat → Pt × Pt × Pt) (w h : ℚ)
    (center : Pt) (radius : ℚ) : Nat → Nat → Prop where
  | refl (a : Nat) : ReachesBy env dUvs w h center radius a a
  | head (a b x : Nat)
      (hint : faceIntersectsStroke dUvs w h a center radius = true)
      (hadj : ∃ k, k < env.nAdjacentFaces a ∧ env.adjacentFacesList a k = b)
      (hff : frontFacing env b = true)
      (htail : ReachesBy env dUvs w h center radius b x) :
      ReachesBy env dUvs w h center radius a x

/-- Concrete one-face environment: a single triangle, no neighbours,
front-facing normal. -/
def fillEnv1 : FillEnv :=
  { nFaces := 1, nAdjacentFaces := fun _ => 0, adjacentFacesList := fun _ _ => 0,
    faceNormal := fun _ => ⟨0, 0, 1⟩, cameraDirection := ⟨0, 0, 1⟩ }

/-- Concrete one-face environment whose single face is back-facing. -/
def fillEnvBack : FillEnv :=
  { nFaces := 1, nAdjacentFaces := fun _ => 0, adjacentFacesList := fun _ _ => 0,
    faceNormal := fun _ => ⟨0, 0, -1⟩, cameraDirection := ⟨0, 0, 1⟩ }

/-- Drawing UVs of the one-face scenarios: the face covers the triangle
with pixel corners (0, 100), (100, 100), (0, 0) on a 100 by 100
canvas. -/
def uvOne : Nat → Pt × Pt × Pt :=
  fun _ => (⟨0, 0⟩, ⟨1, 0⟩, ⟨0, 1⟩)

/-- Texture-manager state of the one-face scenarios. -/
def stOne : TMState := initTMState 1 100 100 uvOne

/-- Concrete two-face environment: faces 0 and 1 are mutual stored
neighbours, both front-facing. -/
def fillEnv2 : FillEnv :=
  { nFaces := 2,
    nAdjacentFaces := fun f => if f ≤ 1 then 1 else 0,
    adjacentFacesList := fun f _ => if f = 0 then 1 else 0,
    faceNormal := fun _ => ⟨0, 0, 1⟩, cameraDirection := ⟨0, 0, 1⟩ }

/-- Drawing UVs of the two-face scenario: the two faces split the unit
UV square along its diagonal. -/
def uvTwo : Nat → Pt × Pt × Pt :=
  fun f => if f = 0 then (⟨0, 0⟩, ⟨1, 0⟩, ⟨0, 1⟩) else (⟨1, 0⟩, ⟨0, 1⟩, ⟨1, 1⟩)

/-- Texture-manager state of the two-face scenario. -/
def stTwo : TMState := initTMState 2 100 100 uvTwo

/-- Two-face geometry in which one vertex position of face 0 coincides
with two vertex positions of face 1: vertex 3 repeats the position of
vertex 0. -/
def gDup : Geometry :=
  { vertices := [⟨0, 0, 0⟩, ⟨1, 0, 0⟩, ⟨0, 1, 0⟩, ⟨0, 0, 0⟩, ⟨2, 0, 0⟩],
    faces := [⟨0, 1, 2, ⟨0, 0, 1⟩⟩, ⟨0, 3, 4, ⟨0, 0, 1⟩⟩] }

/-- Two-face geometry sharing the edge between vertices 1 and 2. -/
def gEdge : Geometry :=
  { vertices := [⟨0, 0, 0⟩, ⟨1, 0, 0⟩, ⟨0, 1, 0⟩, ⟨1, 1, 0⟩],
    faces := [⟨0, 1, 2, ⟨0, 0, 1⟩⟩, ⟨1, 3, 2, ⟨0, 0, 1⟩⟩] }

/-- Two-face texture-manager state with face 0 recorded as affected,
used for the reconciliation frame witness. -/
def stAffectedZero : TMState :=
  { initTMState 2 100 100 uvTwo with affected := (initRecorder 2).add 0 }

/-! Helper lemmas. -/

/-- Preservation of a predicate along a left fold, with membership of
the step element available. -/
theorem foldlPreserves {α β : Type} (P : α → Prop) (l : List β) (g : α → β → α)
    (hg : ∀ s a, a ∈ l → P s → P (g s a)) : ∀ s, P s → P (l.foldl g s) := by
  induction l with
  | nil => intro s hs; simpa using hs
  | cons b t ih =>
    intro s hs
    simpa using ih (fun s a ha hp => hg s a (List.mem_cons_of_mem _ ha) hp) _
      (hg s b (List.mem_cons_self _ _) hs)

/-- Membership in the recorder survives an add. -/
theorem RecorderState.contains_add_mono (r : RecorderState) (i x : Nat)
    (hx : r.contains x = true) : (r.add i).contains x = true := by
  unfold RecorderState.add
  split
  · exact hx
  · unfold RecorderState.contains at hx ⊢
    simp only [Bool.and_eq_true, decide_eq_true_eq] at hx ⊢
    refine ⟨hx.1, ?_⟩
    by_cases hcond : i < r.nFaces ∧ x = i
    · rw [if_pos hcond]
    · rw [if_neg hcond]
      exact hx.2

/-- Members of the recorder after an add were members before or are the
added index. -/
theorem RecorderState.contains_add_elim (r : RecorderState) (i x : Nat)
    (hx : (r.add i).contains x = true) : r.contains x = true ∨ x = i := by
  unfold RecorderState.add at hx
  by_cases hc : r.contains i = true
  · rw [if_pos hc] at hx
    exact Or.inl hx
  · rw [if_neg hc] at hx
    unfold RecorderState.contains at hx ⊢
    simp only [Bool.and_eq_true, decide_eq_true_eq] at hx ⊢
    rcases hx with ⟨h1, h2⟩
    by_cases hxi : x = i
    · exact Or.inr hxi
    · left
      refine ⟨h1, ?_⟩
      rw [if_neg (fun hand => hxi hand.2)] at h2
      exact h2

/-- Adding an index within range makes it a member. -/
theorem RecorderState.contains_add_self (r : RecorderState) (i : Nat)
    (hi : i < r.nFaces) : (r.add i).contains i = true := by
  unfold RecorderState.add
  by_cases hc : r.contains i = true
  · rw [if_pos hc]; exact hc
  · rw [if_neg hc]
    unfold RecorderState.contains
    simp only [Bool.and_eq_true, decide_eq_true_eq]
    exact ⟨hi, by simp [hi]⟩

/-- The member count never shrinks under an add. -/
theorem RecorderState.nAffected_add_le (r : RecorderState) (i : Nat) :
    r.nAffected ≤ (r.add i).nAffected := by
  unfold RecorderState.add
  split
  · exact Nat.le_refl _
  · exact Nat.le_succ _

/-! Theorems for the claims on containment testing, bounds checking,
patch bounds and mode switching. -/

/-- C3 counterexample: on the degenerate all-zero triangle the
barycentric denominator is zero yet the containment test answers true
for the point (5, 5), not false as the claim states. -/
theorem C3_counterexample :
    barycentricDenom ⟨0, 0⟩ ⟨0, 0⟩ ⟨0, 0⟩ = 0 ∧
    pointInTriangle ⟨5, 5⟩ ⟨0, 0⟩ ⟨0, 0⟩ ⟨0, 0⟩ = true := by
  constructor
  · decide
  · decide

/-- C3 amended: the containment test never divides by zero, because a
zero barycentric denominator replaces the inverse by zero; but then
both barycentric coordinates become zero and the test returns true for
every query point, so a degenerate triangle is treated as containing
every stroke centre rather than as containing none. -/
theorem C3_degenerate_amended (p t0 t1 t2 : Pt)
    (h : barycentricDenom t0 t1 t2 = 0) : pointInTriangle p t0 t1 t2 = true := by
  unfold pointInTriangle
  rw [h]
  norm_num

/-- Witness for the C3 amended theorem at a concrete collinear
triangle. -/
theorem C3_degenerate_amended_witness :
    barycentricDenom ⟨0, 0⟩ ⟨1, 1⟩ ⟨2, 2⟩ = 0 ∧
    pointInTriangle ⟨7, 3⟩ ⟨0, 0⟩ ⟨1, 1⟩ ⟨2, 2⟩ = true :=
  ⟨by decide, C3_degenerate_amended ⟨7, 3⟩ ⟨0, 0⟩ ⟨1, 1⟩ ⟨2, 2⟩ (by decide)⟩

/-- C4 counterexample: the recorder of one face accepts the
out-of-range index 5 without any failure; the count is bumped on every
such add (the id is not even deduplicated, because the membership
write is dropped) and membership still reports false. -/
theorem C4_counterexample :
    (((initRecorder 1).add 5).add 5).nAffected = 2 ∧
    ((initRecorder 1).add 5).contains 5 = false := by
  constructor
  · decide
  · decide

/-- C4 amended: no core operation bounds-checks or fails fast.  Adding
an index at or above the face count silently succeeds: the count is
incremented, the membership bitmap write is dropped so the index never
becomes a member, and membership of every index is unchanged.  The
flood-fill entry checks only the lower bound of the face index, which
is automatic for natural numbers, and no InvalidFaceId error exists
anywhere. -/
theorem C4_bounds_amended (r : RecorderState) (i : Nat) (h : r.nFaces ≤ i) :
    (r.add i).nAffected = r.nAffected + 1 ∧
    (r.add i).contains i = false ∧
    (∀ k, (r.add i).contains k = r.contains k) := by
  have hni : ¬ i < r.nFaces := Nat.not_lt.mpr h
  have hc : r.contains i = false := by
    unfold RecorderState.contains
    simp [hni]
  refine ⟨?_, ?_, ?_⟩
  · simp [RecorderState.add, RecorderState.contains, hni]
  · simp [RecorderState.add, RecorderState.contains, hni]
  · intro k
    simp [RecorderState.add, RecorderState.contains, hni]

/-- Witness for the C4 amended theorem: a two-face recorder and the
out-of-range index 7. -/
theorem C4_bounds_amended_witness :
    ((initRecorder 2).add 7).nAffected = (initRecorder 2).nAffected + 1 ∧
    ((initRecorder 2).add 7).contains 7 = false ∧
    (∀ k, ((initRecorder 2).add 7).contains k = (initRecorder 2).contains k) :=
  C4_bounds_amended (initRecorder 2) 7 (by decide)

/-- C7: with affected drawing UVs spanning u from 1/5 to 2/5 and v from
3/10 to 1/2 on a 100 by 100 drawing canvas, the extracted patch is 20
by 20 pixels and its drawImage source rectangle on the drawing canvas
has corners (20, 50) and (40, 70): the conversions are x equals u
times width and y equals one minus v times height. -/
theorem C7_patch_bounds (uvs : List (Pt × Pt × Pt))
    (h1 : uMaxFold uvs = some (2/5)) (h2 : uMinFold uvs = some (1/5))
    (h3 : vMaxFold uvs = some (1/2)) (h4 : vMinFold uvs = some (3/10)) :
    prepareViewingPatch uvs 100 100 =
      some { uMin := 1/5, vMin := 3/10, xMin := 20, yMin := 50, xMax := 40, yMax := 70,
             width := 20, height := 20 } := by
  unfold prepareViewingPatch
  rw [h1, h2, h3, h4]
  norm_num

/-- Witness for C7 at a concrete one-face affected list realising the
stated UV spans. -/
theorem C7_patch_bounds_witness :
    prepareViewingPatch [(⟨1/5, 3/10⟩, ⟨2/5, 1/2⟩, ⟨3/10, 2/5⟩)] 100 100 =
      some { uMin := 1/5, vMin := 3/10, xMin := 20, yMin := 50, xMax := 40, yMax := 70,
             width := 20, height := 20 } :=
  C7_patch_bounds [(⟨1/5, 3/10⟩, ⟨2/5, 1/2⟩, ⟨3/10, 2/5⟩)]
    (by decide) (by decide) (by decide) (by decide)

/-- C8: switching to the already-active texture mode is a no-op.  A
second consecutive useDrawingTexture returns the state of the first
call unchanged, so the projection and render work happens exactly
once, and a second consecutive useViewingTexture returns its input
unchanged, so it performs no pixel write. -/
theorem C8_mode_switch_idempotent (env : RenderEnv) (c : ControlsState) :
    useDrawingTexture env (useDrawingTexture env c) = useDrawingTexture env c ∧
    useViewingTexture (useViewingTexture c) = useViewingTexture c ∧
    (useDrawingTexture env (useDrawingTexture env c)).tm.projectionWorkCount =
      (useDrawingTexture env c).tm.projectionWorkCount ∧
    (useViewingTexture (useViewingTexture c)).tm.pixelWriteCount =
      (useViewingTexture c).tm.pixelWriteCount := by
  have hd : useDrawingTexture env (useDrawingTexture env c) = useDrawingTexture env c := by
    unfold useDrawingTexture
    by_cases h : c.usingViewingTexture
    · simp [h]
    · simp [h]
  have hv : useViewingTexture (useViewingTexture c) = useViewingTexture c := by
    unfold useViewingTexture
    by_cases h : c.usingViewingTexture
    · simp [h]
    · simp [h]
  exact ⟨hd, hv, by rw [hd], by rw [hv]⟩

/-! Lemmas about the flood-fill. -/

/-- The collision tests degenerate at radius zero: a point never
collides with a zero-radius circle. -/
theorem pointCircleCollide_zero (p c : Pt) : pointCircleCollide p c 0 = false := by
  unfold pointCircleCollide
  simp

/-- The collision tests degenerate at radius zero: an edge never
collides with a zero-radius circle. -/
theorem lineCircleCollide_zero (a b c : Pt) : lineCircleCollide a b c 0 = false := by
  unfold lineCircleCollide
  simp [pointCircleCollide_zero]

/-- The flood-fill never touches the drawing UVs or the canvas
dimensions. -/
theorem addRecursive_frame (env : FillEnv) :
    ∀ (fuel : Nat) (st : TMState) (f : Nat) (c : Pt) (r : ℚ),
      (addRecursive env fuel st f c r).drawingUvs = st.drawingUvs ∧
      (addRecursive env fuel st f c r).canvasWidth = st.canvasWidth ∧
      (addRecursive env fuel st f c r).canvasHeight = st.canvasHeight := by
  intro fuel
  induction fuel with
  | zero => intro st f c r; exact ⟨rfl, rfl, rfl⟩
  | succ n ih =>
    intro st f c r
    simp only [addRecursive]
    split
    · exact ⟨rfl, rfl, rfl⟩
    split
    · refine foldlPreserves
        (fun s : TMState => s.drawingUvs = st.drawingUvs ∧ s.canvasWidth = st.canvasWidth ∧
          s.canvasHeight = st.canvasHeight) _ _ ?_ _ ⟨rfl, rfl, rfl⟩
      intro s a _ hp
      dsimp only
      split
      · rcases ih s (env.adjacentFacesList f a) c r with ⟨e1, e2, e3⟩
        exact ⟨e1.trans hp.1, e2.trans hp.2.1, e3.trans hp.2.2⟩
      · exact hp
    · exact ⟨rfl, rfl, rfl⟩

/-- Membership in the affected set survives a flood-fill run. -/
theorem addRecursive_contains_mono (env : FillEnv) :
    ∀ (fuel : Nat) (st : TMState) (f : Nat) (c : Pt) (r : ℚ) (x : Nat),
      st.affected.contains x = true →
      (addRecursive env fuel st f c r).affected.contains x = true := by
  intro fuel
  induction fuel with
  | zero => intro st f c r x hx; exact hx
  | succ n ih =>
    intro st f c r x hx
    simp only [addRecursive]
    split
    · exact hx
    split
    · refine foldlPreserves (fun s : TMState => s.affected.contains x = true) _ _ ?_ _ ?_
      · intro s a _ hp
        dsimp only
        split
        · exact ih s _ c r x hp
        · exact hp
      · exact RecorderState.contains_add_mono st.affected f x hx
    · exact hx

/-- A visited mark survives a flood-fill run. -/
theorem addRecursive_flood_mono (env : FillEnv) :
    ∀ (fuel : Nat) (st : TMState) (f : Nat) (c : Pt) (r : ℚ) (x : Nat),
      st.isFloodFill x = true →
      (addRecursive env fuel st f c r).isFloodFill x = true := by
  intro fuel
  induction fuel with
  | zero => intro st f c r x hx; exact hx
  | succ n ih =>
    intro st f c r x hx
    simp only [addRecursive]
    split
    · exact hx
    split
    · refine foldlPreserves (fun s : TMState => s.isFloodFill x = true) _ _ ?_ _ ?_
      · intro s a _ hp
        dsimp only
        split
        · exact ih s _ c r x hp
        · exact hp
      · by_cases hxf : x = f
        · simp [hxf]
        · simp [hxf, hx]
    · exact hx

/-- The affected count never shrinks under a flood-fill run. -/
theorem addRecursive_len_mono (env : FillEnv) :
    ∀ (fuel : Nat) (st : TMState) (f : Nat) (c : Pt) (r : ℚ),
      st.affected.nAffected ≤ (addRecursive env fuel st f c r).affected.nAffected := by
  intro fuel
  induction fuel with
  | zero => intro st f c r; exact Nat.le_refl _
  | succ n ih =>
    intro st f c r
    simp only [addRecursive]
    split
    · exact Nat.le_refl _
    split
    · refine foldlPreserves (fun s : TMState => st.affected.nAffected ≤ s.affected.nAffected) _ _ ?_ _ ?_
      · intro s a _ hp
        dsimp only
        split
        · exact Nat.le_trans hp (ih s _ c r)
        · exact hp
      · exact RecorderState.nAffected_add_le st.affected f
    · exact Nat.le_refl _

/-- Every face newly added by a flood-fill call is reachable from the
argument face through a chain of stored-adjacent, stroke-intersecting,
front-facing faces, and both the argument face and the added face
intersect the stroke circle. -/
theorem addRecursive_reaches (env : FillEnv) :
    ∀ (fuel : Nat) (st : TMState) (f x : Nat) (c : Pt) (r : ℚ),
      (addRecursive env fuel st f c r).affected.contains x = true →
      st.affected.contains x = true ∨
        (ReachesBy env st.drawingUvs st.canvasWidth st.canvasHeight c r f x ∧
         faceIntersectsStroke st.drawingUvs st.canvasWidth st.canvasHeight x c r = true ∧
         faceIntersectsStroke st.drawingUvs st.canvasWidth st.canvasHeight f c r = true) := by
  intro fuel
  induction fuel with
  | zero => intro st f x c r hx; exact Or.inl hx
  | succ n ih =>
    intro st f x c r hx
    simp only [addRecursive] at hx
    split at hx
    · exact Or.inl hx
    split at hx
    case isTrue hint =>
      refine (foldlPreserves
        (fun s : TMState => (s.drawingUvs = st.drawingUvs ∧ s.canvasWidth = st.canvasWidth ∧
            s.canvasHeight = st.canvasHeight) ∧
          ∀ y, s.affected.contains y = true →
            st.affected.contains y = true ∨
              (ReachesBy env st.drawingUvs st.canvasWidth st.canvasHeight c r f y ∧
               faceIntersectsStroke st.drawingUvs st.canvasWidth st.canvasHeight y c r = true ∧
               faceIntersectsStroke st.drawingUvs st.canvasWidth st.canvasHeight f c r = true))
        _ _ ?_ _ ?_).2 x hx
      · intro s a ha hp
        dsimp only
        split
        case isTrue hff =>
          rcases addRecursive_frame env n s (env.adjacentFacesList f a) c r with ⟨e1, e2, e3⟩
          refine ⟨⟨e1.trans hp.1.1, e2.trans hp.1.2.1, e3.trans hp.1.2.2⟩, ?_⟩
          intro y hy
          rcases ih s (env.adjacentFacesList f a) y c r hy with hs | ⟨hr, hiy, _⟩
          · exact hp.2 y hs
          · rw [hp.1.1, hp.1.2.1, hp.1.2.2] at hr hiy
            right
            refine ⟨?_, hiy, hint⟩
            exact ReachesBy.head f (env.adjacentFacesList f a) y hint
              ⟨a, List.mem_range.mp ha, rfl⟩ hff hr
        case isFalse => exact hp
      · refine ⟨⟨rfl, rfl, rfl⟩, ?_⟩
        intro y hy
        rcases RecorderState.contains_add_elim st.affected f y hy with hs | hyf
        · exact Or.inl hs
        · subst hyf
          exact Or.inr ⟨ReachesBy.refl y, hint, hint⟩
    · exact Or.inl hx

/-! Theorems for the claims on the flood-fill. -/

/-- C1 counterexample: a radius-zero stroke whose centre lies inside
the projected triangle of the seed face does add the seed face to the
AffectedFaceSet and does mark it visited, so the set does not remain
empty. -/
theorem C1_counterexample :
    (onStrokePainted fillEnv1 stOne (some 0) ⟨10, 90⟩ 0).affected.contains 0 = true ∧
    (onStrokePainted fillEnv1 stOne (some 0) ⟨10, 90⟩ 0).isFloodFill 0 = true ∧
    (onStrokePainted fillEnv1 stOne (some 0) ⟨10, 90⟩ 0).affected.nAffected = 1 := by
  refine ⟨by decide, by decide, by decide⟩

/-- C1 amended: at radius zero the circle collision tests are indeed a
fast reject (they always fail), but the point-in-triangle containment
test does not consult the radius, so the flood-fill still adds every
reachable face whose projected triangle contains the stroke centre; a
face is newly added at radius zero only when its projected triangle
contains the centre, and a seed triangle containing the centre is
marked and added rather than the set remaining empty. -/
theorem C1_radius_zero_amended (env : FillEnv) (st : TMState) (f x : Nat)
    (c : Pt) (fuel : Nat)
    (hx : (addRecursive env fuel st f c 0).affected.contains x = true)
    (hx0 : st.affected.contains x = false) :
    pointInTriangle c
      (faceTriangleInPixels st.drawingUvs st.canvasWidth st.canvasHeight x).1
      (faceTriangleInPixels st.drawingUvs st.canvasWidth st.canvasHeight x).2.1
      (faceTriangleInPixels st.drawingUvs st.canvasWidth st.canvasHeight x).2.2 = true := by
  rcases addRecursive_reaches env fuel st f x c 0 hx with h | ⟨_, hix, _⟩
  · rw [hx0] at h
    cases h
  · unfold faceIntersectsStroke at hix
    simp only [lineCircleCollide_zero, Bool.or_false] at hix
    exact hix

/-- Witness for the C1 amended theorem on the one-face scenario. -/
theorem C1_radius_zero_amended_witness :
    pointInTriangle ⟨10, 90⟩
      (faceTriangleInPixels stOne.drawingUvs stOne.canvasWidth stOne.canvasHeight 0).1
      (faceTriangleInPixels stOne.drawingUvs stOne.canvasWidth stOne.canvasHeight 0).2.1
      (faceTriangleInPixels stOne.drawingUvs stOne.canvasWidth stOne.canvasHeight 0).2.2 = true :=
  C1_radius_zero_amended fillEnv1 stOne 0 0 ⟨10, 90⟩ 2 (by decide) (by decide)

/-- C2 counterexample: in the two-face scenario the first sample of a
stroke (hit on face 0, radius covering both faces) marks face 1
visited, but the next sample of the same stroke clears that mark,
because onStrokePainted resets the visited bitmap on every sample, not
once per stroke; the affected set nevertheless still contains face
1. -/
theorem C2_counterexample :
    (onStrokePainted fillEnv2 stTwo (some 0) ⟨50, 50⟩ 10).isFloodFill 1 = true ∧
    (onStrokePainted fillEnv2 (onStrokePainted fillEnv2 stTwo (some 0) ⟨50, 50⟩ 10)
        (some 0) ⟨10, 90⟩ 1).isFloodFill 1 = false ∧
    (onStrokePainted fillEnv2 (onStrokePainted fillEnv2 stTwo (some 0) ⟨50, 50⟩ 10)
        (some 0) ⟨10, 90⟩ 1).affected.contains 1 = true := by
  refine ⟨by decide, by decide, by decide⟩

/-- C2 amended: the visited bitmap is reset on every onStrokePainted
sample that hits the mesh (the result does not depend on the incoming
bitmap at all), so previously visited faces are retested; the
AffectedFaceSet still only grows across the samples of a stroke,
because the recorder is not reset during a stroke and its add is
idempotent. -/
theorem C2_visited_reset_amended (env : FillEnv) (st : TMState) (hit : Option Nat)
    (c : Pt) (r : ℚ) (x f : Nat)
    (hx : st.affected.contains x = true) (hf : hit = some f) :
    (onStrokePainted env st hit c r).affected.contains x = true ∧
    st.affected.nAffected ≤ (onStrokePainted env st hit c r).affected.nAffected ∧
    (∀ b : Nat → Bool,
      onStrokePainted env { st with isFloodFill := b } hit c r =
        onStrokePainted env st hit c r) := by
  subst hf
  refine ⟨?_, ?_, ?_⟩
  · exact addRecursive_contains_mono env _ _ f c r x hx
  · exact addRecursive_len_mono env (env.nFaces + 1)
      { st with isFloodFill := fun _ => false } f c r
  · intro b
    rfl

/-- Witness for the C2 amended theorem on the second sample of the
two-face stroke scenario. -/
theorem C2_visited_reset_amended_witness :
    (onStrokePainted fillEnv2 (onStrokePainted fillEnv2 stTwo (some 0) ⟨50, 50⟩ 10)
        (some 0) ⟨10, 90⟩ 1).affected.contains 0 = true ∧
    (onStrokePainted fillEnv2 stTwo (some 0) ⟨50, 50⟩ 10).affected.nAffected ≤
      (onStrokePainted fillEnv2 (onStrokePainted fillEnv2 stTwo (some 0) ⟨50, 50⟩ 10)
        (some 0) ⟨10, 90⟩ 1).affected.nAffected ∧
    (∀ b : Nat → Bool,
      onStrokePainted fillEnv2
          { onStrokePainted fillEnv2 stTwo (some 0) ⟨50, 50⟩ 10 with isFloodFill := b }
          (some 0) ⟨10, 90⟩ 1 =
        onStrokePainted fillEnv2 (onStrokePainted fillEnv2 stTwo (some 0) ⟨50, 50⟩ 10)
          (some 0) ⟨10, 90⟩ 1) :=
  C2_visited_reset_amended fillEnv2 (onStrokePainted fillEnv2 stTwo (some 0) ⟨50, 50⟩ 10)
    (some 0) ⟨10, 90⟩ 1 0 0 (by decide) rfl

/-- C6: connectivity of the flood-fill.  Every face newly added by a
run from the seed is reachable from the seed through a chain of
stored-adjacent faces, every face the chain recurses through
intersects the stroke circle, every face entered by recursion passes
the front-facing filter, the added face itself intersects the circle,
the seed intersects the circle, and the seed belongs to the resulting
affected set. -/
theorem C6_flood_fill_connectivity (env : FillEnv) (st : TMState) (seed x : Nat)
    (c : Pt) (r : ℚ) (fuel : Nat)
    (hseed : seed < st.affected.nFaces)
    (hx : (addRecursive env fuel st seed c r).affected.contains x = true)
    (hx0 : st.affected.contains x = false) :
    ReachesBy env st.drawingUvs st.canvasWidth st.canvasHeight c r seed x ∧
    faceIntersectsStroke st.drawingUvs st.canvasWidth st.canvasHeight x c r = true ∧
    faceIntersectsStroke st.drawingUvs st.canvasWidth st.canvasHeight seed c r = true ∧
    (addRecursive env fuel st seed c r).affected.contains seed = true := by
  rcases addRecursive_reaches env fuel st seed x c r hx with h | ⟨hr, hix, his⟩
  · rw [hx0] at h
    cases h
  refine ⟨hr, hix, his, ?_⟩
  cases fuel with
  | zero =>
    simp only [addRecursive] at hx
    rw [hx0] at hx
    cases hx
  | succ n =>
    by_cases hvis : st.isFloodFill seed = true
    · have hres : addRecursive env (n + 1) st seed c r = st := by
        simp [addRecursive, hvis]
      rw [hres, hx0] at hx
      cases hx
    · simp only [addRecursive, hvis, Bool.false_eq_true, if_false, if_neg, his, if_true]
      refine foldlPreserves (fun s : TMState => s.affected.contains seed = true) _ _ ?_ _ ?_
      · intro s a _ hp
        dsimp only
        split
        · exact addRecursive_contains_mono env n s _ c r seed hp
        · exact hp
      · exact RecorderState.contains_add_self st.affected seed hseed

/-- Witness for C6 on the two-face stroke scenario: face 1 is added by
the run seeded at face 0, so it is reachable from the seed and both
faces intersect the circle. -/
theorem C6_flood_fill_connectivity_witness :
    ReachesBy fillEnv2 stTwo.drawingUvs stTwo.canvasWidth stTwo.canvasHeight ⟨50, 50⟩ 10 0 1 ∧
    faceIntersectsStroke stTwo.drawingUvs stTwo.canvasWidth stTwo.canvasHeight 1 ⟨50, 50⟩ 10 = true ∧
    faceIntersectsStroke stTwo.drawingUvs stTwo.canvasWidth stTwo.canvasHeight 0 ⟨50, 50⟩ 10 = true ∧
    (addRecursive fillEnv2 3 stTwo 0 ⟨50, 50⟩ 10).affected.contains 0 = true :=
  C6_flood_fill_connectivity fillEnv2 stTwo 0 1 ⟨50, 50⟩ 10 3 (by decide) (by decide) (by decide)

/-- C10: the front-facing filter guards only the recursion into
neighbours, never the seed.  Whatever the orientation of the face, if
it is unvisited and its projected triangle intersects the stroke
circle, the run seeded there marks it visited and adds it to the
affected set; no hypothesis on its normal is needed. -/
theorem C10_seed_no_facing_filter (env : FillEnv) (st : TMState) (f : Nat) (c : Pt)
    (r : ℚ) (fuel : Nat)
    (hvis : st.isFloodFill f = false)
    (hrange : f < st.affected.nFaces)
    (hint : faceIntersectsStroke st.drawingUvs st.canvasWidth st.canvasHeight f c r = true) :
    (addRecursive env (fuel + 1) st f c r).affected.contains f = true ∧
    (addRecursive env (fuel + 1) st f c r).isFloodFill f = true := by
  simp only [addRecursive, hvis, Bool.false_eq_true, if_false, hint, if_true]
  constructor
  · refine foldlPreserves (fun s : TMState => s.affected.contains f = true) _ _ ?_ _ ?_
    · intro s a _ hp
      dsimp only
      split
      · exact addRecursive_contains_mono env fuel s _ c r f hp
      · exact hp
    · exact RecorderState.contains_add_self st.affected f hrange
  · refine foldlPreserves (fun s : TMState => s.isFloodFill f = true) _ _ ?_ _ ?_
    · intro s a _ hp
      dsimp only
      split
      · exact addRecursive_flood_mono env fuel s _ c r f hp
      · exact hp
    · simp

/-- Witness for C10 on a back-facing single face: its normal has
negative dot product with the camera direction, yet the seeded run
adds and marks it. -/
theorem C10_seed_no_facing_filter_witness :
    dot3 (fillEnvBack.faceNormal 0) fillEnvBack.cameraDirection < 0 ∧
    ((addRecursive fillEnvBack (1 + 1) stOne 0 ⟨10, 90⟩ 5).affected.contains 0 = true ∧
     (addRecursive fillEnvBack (1 + 1) stOne 0 ⟨10, 90⟩ 5).isFloodFill 0 = true) :=
  ⟨by decide,
   C10_seed_no_facing_filter fillEnvBack stOne 0 ⟨10, 90⟩ 5 1 (by decide) (by decide) (by decide)⟩

/-- C9: reconciliation mutates only affected faces.  A face not among
the recorded affected ids keeps its viewing UVs and its per-face patch
across prepareViewingTexture, and every face of a freshly initialised
manager has the placeholder viewing UVs (1/2, 1/2) and the blank
patch. -/
theorem C9_reconcile_frame (st : TMState) (f : Nat)
    (hf : f ∉ st.affectedIds) :
    st.prepareViewingTexture.viewingUvs f = st.viewingUvs f ∧
    st.prepareViewingTexture.facePatch f = st.facePatch f ∧
    (∀ (n : Nat) (w h : ℚ) (d : Nat → Pt × Pt × Pt) (g : Nat),
      (initTMState n w h d).viewingUvs g = (⟨1/2, 1/2⟩, ⟨1/2, 1/2⟩, ⟨1/2, 1/2⟩) ∧
      (initTMState n w h d).facePatch g = none) := by
  have key : ∀ (p : PatchInfo) (st1 : TMState),
      st1.viewingUvs f = st.viewingUvs f → st1.facePatch f = st.facePatch f →
      (st.affectedIds.foldl (remapFace p) st1).viewingUvs f = st.viewingUvs f ∧
      (st.affectedIds.foldl (remapFace p) st1).facePatch f = st.facePatch f := by
    intro p st1 h1 h2
    refine foldlPreserves
      (fun acc : TMState => acc.viewingUvs f = st.viewingUvs f ∧
        acc.facePatch f = st.facePatch f) _ _ ?_ _ ⟨h1, h2⟩
    intro s a ha hp
    have haf : ¬ (f = a) := fun he => hf (he ▸ ha)
    unfold remapFace
    refine ⟨?_, ?_⟩
    · dsimp only
      rw [if_neg haf]
      exact hp.1
    · dsimp only
      rw [if_neg haf]
      exact hp.2
  unfold TMState.prepareViewingTexture
  by_cases h0 : 0 < st.affected.nAffected
  · rw [if_pos h0]
    cases hm : prepareViewingPatch st.affectedUvs st.canvasWidth st.canvasHeight with
    | none => exact ⟨rfl, rfl, fun n w h d g => ⟨rfl, rfl⟩⟩
    | some p =>
      rcases key p { st with pixelWriteCount := st.pixelWriteCount + 1 } rfl rfl with ⟨k1, k2⟩
      exact ⟨k1, k2, fun n w h d g => ⟨rfl, rfl⟩⟩
  · rw [if_neg h0]
    exact ⟨rfl, rfl, fun n w h d g => ⟨rfl, rfl⟩⟩

/-- Witness for C9: with face 0 affected, face 1 keeps its viewing UVs
and patch across reconciliation. -/
theorem C9_reconcile_frame_witness :
    stAffectedZero.prepareViewingTexture.viewingUvs 1 = stAffectedZero.viewingUvs 1 ∧
    stAffectedZero.prepareViewingTexture.facePatch 1 = stAffectedZero.facePatch 1 ∧
    (∀ (n : Nat) (w h : ℚ) (d : Nat → Pt × Pt × Pt) (g : Nat),
      (initTMState n w h d).viewingUvs g = (⟨1/2, 1/2⟩, ⟨1/2, 1/2⟩, ⟨1/2, 1/2⟩) ∧
      (initTMState n w h d).facePatch g = none) :=
  C9_reconcile_frame stAffectedZero 1 (by decide)

/-! Lemmas about the adjacency construction. -/

/-- Exact coordinate equality is symmetric. -/
theorem vecEqB_symm (p q : Vec3) : vecEqB p q = vecEqB q p := by
  unfold vecEqB
  rw [decide_eq_decide]
  constructor
  · rintro ⟨h1, h2, h3⟩
    exact ⟨h1.symm, h2.symm, h3.symm⟩
  · rintro ⟨h1, h2, h3⟩
    exact ⟨h1.symm, h2.symm, h3.symm⟩

/-- The dot product is commutative. -/
theorem dot3_comm (a b : Vec3) : dot3 a b = dot3 b a := by
  unfold dot3
  ring

/-- One loop iteration of the coincidence count is symmetric under
swapping the two faces and the two vertex slots. -/
theorem coinInd_swap (g : Geometry) (fi fj : FaceData) (k l : Nat) :
    coinInd g fi fj k l = coinInd g fj fi l k := by
  unfold coinInd
  rw [vecEqB_symm (g.vertices.getD k default) (g.vertices.getD l default),
    dot3_comm fi.normal fj.normal]

/-- The nine-iteration count is symmetric in the two faces. -/
theorem cCount_symm (g : Geometry) (fi fj : FaceData) : cCount g fi fj = cCount g fj fi := by
  unfold cCount
  rw [coinInd_swap g fi fj fi.a fj.a, coinInd_swap g fi fj fi.a fj.b,
    coinInd_swap g fi fj fi.a fj.c, coinInd_swap g fi fj fi.b fj.a,
    coinInd_swap g fi fj fi.b fj.b, coinInd_swap g fi fj fi.b fj.c,
    coinInd_swap g fi fj fi.c fj.a, coinInd_swap g fi fj fi.c fj.b,
    coinInd_swap g fi fj fi.c fj.c]
  omega

/-- The coincidence count is symmetric in the two face indices. -/
theorem coincidenceCount_symm (g : Geometry) (i j : Nat) :
    coincidenceCount g i j = coincidenceCount g j i :=
  cCount_symm g _ _

/-- Membership in the pair list of the constructor double loop. -/
theorem facePairs_mem (nF : Nat) (p : Nat × Nat) :
    p ∈ facePairs nF ↔ p.1 < p.2 ∧ p.2 < nF := by
  unfold facePairs
  cases p with
  | mk i j =>
    simp only [List.mem_flatMap, List.mem_map, List.mem_filter, List.mem_range,
      Prod.mk.injEq, decide_eq_true_eq]
    constructor
    · rintro ⟨a, ha, b, ⟨hb, hab⟩, he1, he2⟩
      subst he1
      subst he2
      exact ⟨hab, hb⟩
    · rintro ⟨hij, hj⟩
      exact ⟨i, Nat.lt_trans hij hj, j, ⟨hj, hij⟩, rfl, rfl⟩

/-- The pair list of the constructor double loop has no duplicates. -/
theorem facePairs_nodup (nF : Nat) : (facePairs nF).Nodup := by
  unfold facePairs
  refine List.nodup_flatMap.mpr ⟨?_, ?_⟩
  · intro i _
    refine List.Nodup.map ?_ ((List.nodup_range nF).filter _)
    intro a b h
    simpa using congrArg Prod.snd h
  · refine List.Pairwise.imp ?_ (List.pairwise_lt_range nF)
    intro a b hab
    intro x hx1 hx2
    rcases List.mem_map.mp hx1 with ⟨c, _, he1⟩
    rcases List.mem_map.mp hx2 with ⟨d, _, he2⟩
    have h1 : x.1 = a := by rw [← he1]
    have h2 : x.1 = b := by rw [← he2]
    exact Nat.ne_of_lt hab (h1.symm.trans h2)

/-- Appending one pair to the processed list adds its contribution to
the touch count. -/
theorem touchCount_append (g : Geometry) (P : List (Nat × Nat)) (p : Nat × Nat) (m : Nat) :
    touchCount g (P ++ [p]) m =
      touchCount g P m + (if adjacentB g p && touchesB m p then 1 else 0) := by
  unfold touchCount
  rw [List.filter_append, List.length_append]
  by_cases h1 : adjacentB g p = true <;> by_cases h2 : touchesB m p = true <;>
    simp [List.filter_cons, List.filter_nil, h1, h2]

/-- Bound on the touch count of a face below the face count: a nodup
list of ordered in-range pairs touching m injects, via the other
endpoint, into the faces other than m. -/
theorem touchCount_le (g : Geometry) (nF : Nat) (P : List (Nat × Nat)) (hnd : P.Nodup)
    (hb : ∀ p ∈ P, p.1 < p.2 ∧ p.2 < nF) (m : Nat) (hm : m < nF) :
    touchCount g P m + 1 ≤ nF := by
  classical
  unfold touchCount
  set Q := P.filter (fun p => adjacentB g p && touchesB m p) with hQdef
  have hQsub : ∀ q ∈ Q, q ∈ P := fun q hq => (List.mem_filter.mp hq).1
  have hQtouch : ∀ q ∈ Q, q.1 = m ∨ q.2 = m := by
    intro q hq
    have h := (List.mem_filter.mp hq).2
    simp only [touchesB, Bool.and_eq_true, Bool.or_eq_true, beq_iff_eq] at h
    exact h.2
  have hQb : ∀ q ∈ Q, q.1 < q.2 ∧ q.2 < nF := fun q hq => hb q (hQsub q hq)
  have hQnd : Q.Nodup := hnd.filter _
  have hinj : ∀ q ∈ Q, ∀ q2 ∈ Q,
      (if q.1 = m then q.2 else q.1) = (if q2.1 = m then q2.2 else q2.1) → q = q2 := by
    intro q hq q2 hq2 he
    rcases hQtouch q hq with h1 | h1 <;> rcases hQtouch q2 hq2 with h2 | h2
    · rw [if_pos h1, if_pos h2] at he
      exact Prod.ext (h1.trans h2.symm) he
    · rw [if_pos h1] at he
      have hq2b := hQb q2 hq2
      have hqb := hQb q hq
      have hne2 : ¬ q2.1 = m := by omega
      rw [if_neg hne2] at he
      exfalso
      omega
    · rw [if_pos h2] at he
      have hq2b := hQb q2 hq2
      have hqb := hQb q hq
      have hne1 : ¬ q.1 = m := by omega
      rw [if_neg hne1] at he
      exfalso
      omega
    · have hqb := hQb q hq
      have hq2b := hQb q2 hq2
      have hne1 : ¬ q.1 = m := by omega
      have hne2 : ¬ q2.1 = m := by omega
      rw [if_neg hne1, if_neg hne2] at he
      exact Prod.ext (he) (h1.trans h2.symm)
  have hRnd : (Q.map (fun q => if q.1 = m then q.2 else q.1)).Nodup :=
    List.Nodup.map_on hinj hQnd
  have hsub : (Q.map (fun q => if q.1 = m then q.2 else q.1)).toFinset ⊆
      (Finset.range nF).erase m := by
    intro r hr
    rw [List.mem_toFinset] at hr
    rcases List.mem_map.mp hr with ⟨q, hq, he⟩
    have hqb := hQb q hq
    rcases hQtouch q hq with h1 | h1
    · rw [if_pos h1] at he
      refine Finset.mem_erase.mpr ⟨?_, Finset.mem_range.mpr ?_⟩ <;> omega
    · have hne1 : ¬ q.1 = m := by omega
      rw [if_neg hne1] at he
      refine Finset.mem_erase.mpr ⟨?_, Finset.mem_range.mpr ?_⟩ <;> omega
  have hcard := Finset.card_le_card hsub
  rw [List.toFinset_card_of_nodup hRnd, Finset.card_erase_of_mem (Finset.mem_range.mpr hm),
    Finset.card_range, List.length_map] at hcard
  omega

/-- Invariant of the constructor double loop: after processing any
nodup prefix of in-range ordered pairs, the neighbour counters equal
the touch counts, every stored entry comes from a processed adjacent
pair, and every processed adjacent pair is stored in both
directions. -/
theorem buildAdjacency_inv (g : Geometry) (hF : g.faces.length ≤ 256) :
    ∀ P : List (Nat × Nat), P.Nodup →
      (∀ p ∈ P, p.1 < p.2 ∧ p.2 < g.faces.length) →
      AdjInv g P (P.foldl (processPair g) initAdjState) := by
  intro P
  induction P using List.reverseRecOn with
  | nil =>
    intro _ _
    refine ⟨fun m => rfl, ?_, ?_⟩
    · intro m k hk
      exact absurd hk (Nat.not_lt_zero k)
    · intro p hp
      cases hp
  | append_singleton P p ih =>
    intro hnd hb
    have hndP : P.Nodup := List.Nodup.of_append_left hnd
    have hbP : ∀ q ∈ P, q.1 < q.2 ∧ q.2 < g.faces.length :=
      fun q hq => hb q (List.mem_append_left _ hq)
    have hInv := ih hndP hbP
    have hpb : p.1 < p.2 ∧ p.2 < g.faces.length :=
      hb p (List.mem_append_right _ (by simp))
    rw [List.foldl_append, List.foldl_cons, List.foldl_nil]
    set s := P.foldl (processPair g) initAdjState with hs
    unfold processPair
    by_cases hadj : coincidenceCount g p.1 p.2 = 2
    case neg =>
      rw [if_neg hadj]
      have hadjF : adjacentB g p = false := by
        simp [adjacentB, hadj]
      refine ⟨?_, ?_, ?_⟩
      · intro m
        rw [hInv.1 m, touchCount_append]
        simp [hadjF]
      · intro m k hk
        rcases hInv.2.1 m k hk with ⟨q, hq, hqa, hqc⟩
        exact ⟨q, List.mem_append_left _ hq, hqa, hqc⟩
      · intro q hq hqa
        rcases List.mem_append.mp hq with hqP | hqp
        · exact hInv.2.2 q hqP hqa
        · have hqp2 : q = p := by simpa using hqp
          subst hqp2
          rw [hqa] at hadjF
          cases hadjF
    case pos =>
      rw [if_pos hadj]
      obtain ⟨hij, hjF⟩ := hpb
      have hiF : p.1 < g.faces.length := Nat.lt_trans hij hjF
      have hadjB : adjacentB g p = true := by
        simp [adjacentB, hadj]
      have hti : s.nAdj p.1 = touchCount g P p.1 := hInv.1 p.1
      have htj : s.nAdj p.2 = touchCount g P p.2 := hInv.1 p.2
      have htle_i : touchCount g (P ++ [p]) p.1 + 1 ≤ g.faces.length :=
        touchCount_le g _ (P ++ [p]) hnd hb p.1 hiF
      have htle_j : touchCount g (P ++ [p]) p.2 + 1 ≤ g.faces.length :=
        touchCount_le g _ (P ++ [p]) hnd hb p.2 hjF
      have htouch_i : touchesB p.1 p = true := by
        simp [touchesB]
      have htouch_j : touchesB p.2 p = true := by
        simp [touchesB]
      have htapp_i : touchCount g (P ++ [p]) p.1 = touchCount g P p.1 + 1 := by
        rw [touchCount_append]
        simp [hadjB, htouch_i]
      have htapp_j : touchCount g (P ++ [p]) p.2 = touchCount g P p.2 + 1 := by
        rw [touchCount_append]
        simp [hadjB, htouch_j]
      have hmod_i : (s.nAdj p.1 + 1) % 256 = s.nAdj p.1 + 1 := Nat.mod_eq_of_lt (by omega)
      have hmod_j : (s.nAdj p.2 + 1) % 256 = s.nAdj p.2 + 1 := Nat.mod_eq_of_lt (by omega)
      have hslot_i : s.nAdj p.1 < g.faces.length := by omega
      have hslot_j : s.nAdj p.2 < g.faces.length := by omega
      have hvmod_i : p.1 % 4294967296 = p.1 := Nat.mod_eq_of_lt (by omega)
      have hvmod_j : p.2 % 4294967296 = p.2 := Nat.mod_eq_of_lt (by omega)
      have hji : ¬ p.2 = p.1 := by omega
      have hnAdj : ∀ m, (recordNeighbors g.faces.length s p.1 p.2).nAdj m =
          if m = p.2 then s.nAdj p.2 + 1
          else if m = p.1 then s.nAdj p.1 + 1 else s.nAdj m := by
        intro m
        simp only [recordNeighbors]
        by_cases hmj : m = p.2
        · subst hmj
          rw [if_pos rfl, if_pos rfl, if_neg hji]
          exact hmod_j
        · rw [if_neg hmj, if_neg hmj]
          by_cases hmi : m = p.1
          · subst hmi
            rw [if_pos rfl, if_pos rfl]
            exact hmod_i
          · rw [if_neg hmi, if_neg hmi]
      have hlist : ∀ m k, (recordNeighbors g.faces.length s p.1 p.2).adjList m k =
          if m = p.2 ∧ k = s.nAdj p.2 then p.1
          else if m = p.1 ∧ k = s.nAdj p.1 then p.2
          else s.adjList m k := by
        intro m k
        simp only [recordNeighbors, adjListWrite]
        by_cases h2 : m = p.2 ∧ k = s.nAdj p.2
        · rw [if_pos ⟨h2.1, h2.2, hslot_j⟩, if_pos h2]
          exact hvmod_i
        · rw [if_neg (fun hand => h2 ⟨hand.1, hand.2.1⟩), if_neg h2]
          by_cases h1 : m = p.1 ∧ k = s.nAdj p.1
          · rw [if_pos ⟨h1.1, h1.2, hslot_i⟩, if_pos h1]
            exact hvmod_j
          · rw [if_neg (fun hand => h1 ⟨hand.1, hand.2.1⟩), if_neg h1]
      refine ⟨?_, ?_, ?_⟩
      · intro m
        rw [hnAdj m, touchCount_append]
        by_cases hmj : m = p.2
        · subst hmj
          rw [if_pos rfl, htj]
          simp [hadjB, htouch_j]
        · rw [if_neg hmj]
          by_cases hmi : m = p.1
          · subst hmi
            rw [if_pos rfl, hti]
            simp [hadjB, htouch_i]
          · rw [if_neg hmi, hInv.1 m]
            have hne1 : ¬ (p.1 == m) = true := by
              simp only [beq_iff_eq]
              omega
            have hne2 : ¬ (p.2 == m) = true := by
              simp only [beq_iff_eq]
              omega
            simp [touchesB, hne1, hne2]
      · intro m k hk
        rw [hnAdj m] at hk
        rw [hlist m k]
        by_cases hmj : m = p.2
        · subst hmj
          rw [if_pos rfl] at hk
          by_cases hkt : k = s.nAdj p.2
          · rw [if_pos ⟨rfl, hkt⟩]
            exact ⟨p, List.mem_append_right _ (by simp), hadjB, Or.inr ⟨rfl, rfl⟩⟩
          · rw [if_neg (fun hand => hkt hand.2), if_neg (fun hand => hji hand.1)]
            have hk2 : k < s.nAdj p.2 := by omega
            rcases hInv.2.1 p.2 k hk2 with ⟨q, hq, hqa, hqc⟩
            exact ⟨q, List.mem_append_left _ hq, hqa, hqc⟩
        · rw [if_neg hmj] at hk
          rw [if_neg (fun hand => hmj hand.1)]
          by_cases hmi : m = p.1
          · subst hmi
            rw [if_pos rfl] at hk
            by_cases hkt : k = s.nAdj p.1
            · rw [if_pos ⟨rfl, hkt⟩]
              exact ⟨p, List.mem_append_right _ (by simp), hadjB, Or.inl ⟨rfl, rfl⟩⟩
            · rw [if_neg (fun hand => hkt hand.2)]
              have hk2 : k < s.nAdj p.1 := by omega
              rcases hInv.2.1 p.1 k hk2 with ⟨q, hq, hqa, hqc⟩
              exact ⟨q, List.mem_append_left _ hq, hqa, hqc⟩
          · rw [if_neg hmi] at hk
            rw [if_neg (fun hand => hmi hand.1)]
            rcases hInv.2.1 m k hk with ⟨q, hq, hqa, hqc⟩
            exact ⟨q, List.mem_append_left _ hq, hqa, hqc⟩
      · intro q hq hqa
        rcases List.mem_append.mp hq with hqP | hqp
        · rcases hInv.2.2 q hqP hqa with ⟨⟨k1, hk1, he1⟩, ⟨k2, hk2, he2⟩⟩
          constructor
          · refine ⟨k1, ?_, ?_⟩
            · rw [hnAdj q.1]
              by_cases hq1j : q.1 = p.2
              · rw [if_pos hq1j, ← hq1j]
                omega
              · rw [if_neg hq1j]
                by_cases hq1i : q.1 = p.1
                · rw [if_pos hq1i, ← hq1i]
                  omega
                · rw [if_neg hq1i]
                  exact hk1
            · rw [hlist q.1 k1]
              rw [if_neg ?hA, if_neg ?hB]
              · exact he1
              case hA =>
                rintro ⟨ha1, ha2⟩
                rw [ha1] at hk1
                omega
              case hB =>
                rintro ⟨ha1, ha2⟩
                rw [ha1] at hk1
                omega
          · refine ⟨k2, ?_, ?_⟩
            · rw [hnAdj q.2]
              by_cases hq2j : q.2 = p.2
              · rw [if_pos hq2j, ← hq2j]
                omega
              · rw [if_neg hq2j]
                by_cases hq2i : q.2 = p.1
                · rw [if_pos hq2i, ← hq2i]
                  omega
                · rw [if_neg hq2i]
                  exact hk2
            · rw [hlist q.2 k2]
              rw [if_neg ?hC, if_neg ?hD]
              · exact he2
              case hC =>
                rintro ⟨ha1, ha2⟩
                rw [ha1] at hk2
                omega
              case hD =>
                rintro ⟨ha1, ha2⟩
                rw [ha1] at hk2
                omega
        · have hqp2 : q = p := by simpa using hqp
          subst hqp2
          constructor
          · refine ⟨s.nAdj q.1, ?_, ?_⟩
            · rw [hnAdj q.1, if_neg (fun he => hji he.symm), if_pos rfl]
              omega
            · rw [hlist q.1 (s.nAdj q.1)]
              rw [if_neg ?hE, if_pos ⟨rfl, rfl⟩]
              case hE =>
                rintro ⟨ha1, _⟩
                exact hji ha1.symm
          · refine ⟨s.nAdj q.2, ?_, ?_⟩
            · rw [hnAdj q.2, if_pos rfl]
              omega
            · rw [hlist q.2 (s.nAdj q.2), if_pos ⟨rfl, rfl⟩]

/-- C5 counterexample: in the duplicate-vertex mesh, faces 0 and 1 are
recorded as neighbours by the constructor (the single coinciding
position of face 0 matches two vertex slots of face 1, so the loop
counts 2), yet only one vertex of face 0 coincides with a vertex of
face 1, so the claimed per-vertex condition of the spec is false. -/
theorem C5_counterexample :
    neighborMemB (buildAdjacency gDup) 0 1 = true ∧
    specNeighborCondB gDup 0 1 = false ∧
    specVertexCoincidences gDup 0 1 = 1 := by
  refine ⟨by decide, by decide, by decide⟩

/-- C5 amended: for meshes of at most 256 faces (the per-face neighbour
counter of the source is an 8-bit cell), face j appears in the stored
neighbour list of face i exactly when the constructor count is 2,
where the count is over ordered vertex-slot pairs (k, l) whose two
positions coincide exactly and, as part of the same conjunction, the
two face normals have positive dot product; this pair count differs
from the per-vertex count of the spec only when a position repeats
inside a face.  The stored relation is symmetric. -/
theorem C5_adjacency_amended (g : Geometry) (hF : g.faces.length ≤ 256) (i j : Nat)
    (hi : i < g.faces.length) (hj : j < g.faces.length) (hij : i ≠ j) :
    (neighborMemB (buildAdjacency g) i j = true ↔ coincidenceCount g i j = 2) ∧
    (neighborMemB (buildAdjacency g) i j = true → neighborMemB (buildAdjacency g) j i = true) := by
  have hInv : AdjInv g (facePairs g.faces.length) (buildAdjacency g) := by
    have := buildAdjacency_inv g hF (facePairs g.faces.length) (facePairs_nodup _)
      (fun p hp => (facePairs_mem _ p).mp hp)
    exact this
  have hmemB : ∀ a b : Nat, neighborMemB (buildAdjacency g) a b = true ↔
      ∃ k, k < (buildAdjacency g).nAdj a ∧ (buildAdjacency g).adjList a k = b := by
    intro a b
    unfold neighborMemB
    simp only [List.any_eq_true, List.mem_range, beq_iff_eq]
  have forward : ∀ a b : Nat, neighborMemB (buildAdjacency g) a b = true →
      coincidenceCount g a b = 2 := by
    intro a b hmem
    rcases (hmemB a b).mp hmem with ⟨k, hk, he⟩
    rcases hInv.2.1 a k hk with ⟨q, _, hqa, hqc⟩
    have hqcount : coincidenceCount g q.1 q.2 = 2 := by
      simpa [adjacentB] using hqa
    rcases hqc with ⟨h1, h2⟩ | ⟨h1, h2⟩
    · have hb2 : q.2 = b := by rw [← h2, he]
      rw [h1, hb2] at hqcount
      exact hqcount
    · have hb1 : q.1 = b := by rw [← h2, he]
      rw [hb1, h1] at hqcount
      rw [coincidenceCount_symm]
      exact hqcount
  have backward : ∀ a b : Nat, a < g.faces.length → b < g.faces.length → a ≠ b →
      coincidenceCount g a b = 2 → neighborMemB (buildAdjacency g) a b = true := by
    intro a b ha hb hab hc
    rcases Nat.lt_or_ge a b with hord | hord
    · have hmem : (a, b) ∈ facePairs g.faces.length := (facePairs_mem _ (a, b)).mpr ⟨hord, hb⟩
      have hrec := hInv.2.2 (a, b) hmem (by simpa [adjacentB] using hc)
      rcases hrec.1 with ⟨k, hk, he⟩
      exact (hmemB a b).mpr ⟨k, hk, he⟩
    · have hba : b < a := Nat.lt_of_le_of_ne hord (fun he => hab he.symm)
      have hmem : (b, a) ∈ facePairs g.faces.length := (facePairs_mem _ (b, a)).mpr ⟨hba, ha⟩
      have hc2 : coincidenceCount g b a = 2 := by
        rw [coincidenceCount_symm]
        exact hc
      have hrec := hInv.2.2 (b, a) hmem (by simpa [adjacentB] using hc2)
      rcases hrec.2 with ⟨k, hk, he⟩
      exact (hmemB a b).mpr ⟨k, hk, he⟩
  refine ⟨⟨forward i j, backward i j hi hj hij⟩, ?_⟩
  intro hmem
  refine backward j i hj hi (fun he => hij he.symm) ?_
  rw [coincidenceCount_symm]
  exact forward i j hmem

/-- Witness for the C5 amended theorem on the ordinary two-face mesh
sharing one edge. -/
theorem C5_adjacency_amended_witness :
    (neighborMemB (buildAdjacency gEdge) 0 1 = true ↔ coincidenceCount gEdge 0 1 = 2) ∧
    (neighborMemB (buildAdjacency gEdge) 0 1 = true →
      neighborMemB (buildAdjacency gEdge) 1 0 = true) :=
  C5_adjacency_amended gEdge (by decide) 0 1 (by decide) (by decide) (by decide)
